import Mathlib

/-! Focus tracking and helper visibility of autocw.

A shallow embedding of `src/autocw.cc`.  The three globals of the program
(`focus_map`, `current_app`, `active`) together with the log of `system()`
invocations form an explicit `State`; every function of the source that
touches them becomes a state transformer.  The answers of the two external
libraries (AT-SPI and Xlib) are inputs: an accessible object carries what
the cspi accessors report about it, an `XServer` carries what the Xlib
queries report about each window, and the outcome of `XQueryPointer` is an
argument of every handler.
-/

namespace AutoCW

/-! ## Data -/

/-- The `SPIRect` record of cspi: a position and a size. -/
structure SPIRect where
  x : Int
  y : Int
  width : Int
  height : Int
  deriving DecidableEq, Repr

/-- Source `typedef boost::shared_ptr<SPIRect> Rect;` an empty pointer is `none`. -/
abbrev Rect := Option SPIRect

/-- Roles reported by `Accessible_getRole`; only `SPI_ROLE_DOCUMENT_FRAME`
is inspected by the program. -/
inductive AccessibleRole where
  | SPI_ROLE_INVALID
  | SPI_ROLE_DOCUMENT_FRAME
  | SPI_ROLE_OTHER (code : Nat)
  deriving DecidableEq, Repr

/-- Coordinate systems accepted by `AccessibleComponent_getExtents`. -/
inductive AccessibleCoordType where
  | SPI_COORD_TYPE_SCREEN
  | SPI_COORD_TYPE_WINDOW
  deriving DecidableEq, Repr

/-- The component interface of an accessible object: its extents in each
coordinate system. -/
structure AccessibleComponent where
  screen : SPIRect
  window : SPIRect
  deriving DecidableEq, Repr

/-- What the accessibility bus reports about one object. -/
structure AccessibleObj where
  isEditableText : Bool
  role : AccessibleRole
  component : Option AccessibleComponent
  deriving DecidableEq, Repr

/-- An `Accessible *`; the null pointer is `none`. -/
abbrev Accessible := Option AccessibleObj

/-- An `AccessibleApplication *` is resolved to the id it reports. -/
structure AccessibleApplication where
  id : Int
  deriving DecidableEq, Repr

/-- An `AccessibleEvent`: its `source` field and the application that
`AccessibleEvent_getSourceApplication` resolves for it (`none` when it
returns null). -/
structure AccessibleEvent where
  source : Accessible
  sourceApplication : Option AccessibleApplication
  deriving DecidableEq, Repr

/-- The cspi accessor: false on a null pointer. -/
def Accessible_isEditableText : Accessible → Bool
  | none => false
  | some o => o.isEditableText

/-- The cspi accessor: `SPI_ROLE_INVALID` on a null pointer. -/
def Accessible_getRole : Accessible → AccessibleRole
  | none => AccessibleRole.SPI_ROLE_INVALID
  | some o => o.role

/-- The cspi accessor: null (`none`) when the object has no component
interface. -/
def Accessible_getComponent : Accessible → Option AccessibleComponent
  | none => none
  | some o => o.component

/-- The cspi accessor filling `x, y, width, height`. -/
def AccessibleComponent_getExtents (comp : AccessibleComponent) :
    AccessibleCoordType → SPIRect
  | AccessibleCoordType.SPI_COORD_TYPE_SCREEN => comp.screen
  | AccessibleCoordType.SPI_COORD_TYPE_WINDOW => comp.window

/-- The accessor `AccessibleApplication_getID`. -/
def AccessibleApplication_getID (app : AccessibleApplication) : Int := app.id

/-- The argument of the first `system()` call of the source. -/
def hide_command : String := "cellwriter --hide-window"

/-- The argument of the second `system()` call of the source. -/
def show_command : String := "cellwriter --show-window"

/-- Source `std::map<int, Rect>`: the entries in increasing key order. -/
abbrev FocusMap := List (Int × Rect)

/-- Source `focus_map.find(k)`: `none` stands for `focus_map.end()`, otherwise the
mapped value `i->second`. -/
def FocusMap.find : FocusMap → Int → Option Rect
  | [], _ => none
  | (k1, v1) :: m, k => if k = k1 then some v1 else FocusMap.find m k

/-- Source `focus_map[k] = v`: overwrite the entry of `k` when there is one,
otherwise insert a new entry at its place in key order. -/
def FocusMap.assign : FocusMap → Int → Rect → FocusMap
  | [], k, v => [(k, v)]
  | (k1, v1) :: m, k, v =>
    if k = k1 then (k, v) :: m
    else if k < k1 then (k, v) :: (k1, v1) :: m
    else (k1, v1) :: FocusMap.assign m k v

/-- Number of entries stored under key `k`. -/
def FocusMap.entries (m : FocusMap) (k : Int) : Nat :=
  (m.filter (fun p => decide (p.1 = k))).length

/-- The representation invariant of `std::map`: keys strictly increasing. -/
def FocusMap.Sorted (m : FocusMap) : Prop :=
  List.Pairwise (fun p q => p.1 < q.1) m

/-- The globals of the program plus the log of commands handed to
`system()`, oldest first. -/
structure State where
  focus_map : FocusMap
  current_app : Int
  active : Bool
  commands : List String
  deriving DecidableEq, Repr

/-- The state at program start: `focus_map` empty, `current_app` zero
initialised, `active = false`, nothing run yet. -/
def State.init : State :=
  { focus_map := [], current_app := 0, active := false, commands := [] }

/-- Source `system(command)`: the return value is ignored by the program, so only
the invocation is recorded. -/
def system (command : String) (s : State) : State :=
  { s with commands := s.commands ++ [command] }

/-! ## Visibility controller -/

/-- Source `query_pointer`: the status returned by `XQueryPointer`; `ptr` is the
pointer position when the query succeeds, `none` when it returns False. -/
def query_pointer (ptr : Option (Int × Int)) : Bool := ptr.isSome

/-- Source `hide_cellwriter`: run the hide command, clear the flag. -/
def hide_cellwriter (s : State) : State :=
  { system hide_command s with active := false }

/-- Source `show_cellwriter`: give up when the pointer query fails, hide first
when the flag is set, then run the show command and set the flag.  The
rectangle argument is not read. -/
def show_cellwriter (_e : Rect) (ptr : Option (Int × Int)) (s : State) : State :=
  if !query_pointer ptr then s
  else
    let s1 := if s.active then hide_cellwriter s else s
    { system show_command s1 with active := true }

/-- Source `update`: record the application, look it up in the registry, do
nothing without an entry, show on a rectangle, hide on the empty pointer. -/
def update (app_id : Int) (ptr : Option (Int × Int)) (s : State) : State :=
  let s0 := { s with current_app := app_id }
  match FocusMap.find s0.focus_map app_id with
  | none => s0
  | some e => if e.isSome then show_cellwriter e ptr s0 else hide_cellwriter s0

/-! ## Geometry prober -/

/-- Source `get_extents`: the empty pointer without a component interface,
otherwise the screen extents of the component. -/
def get_extents (obj : Accessible) : Rect :=
  match Accessible_getComponent obj with
  | none => none
  | some comp =>
    some (AccessibleComponent_getExtents comp AccessibleCoordType.SPI_COORD_TYPE_SCREEN)

/-- Source `get_text_extents`: the empty pointer for an object that is not
editable text or whose role is document frame, otherwise `get_extents`. -/
def get_text_extents (obj : Accessible) : Rect :=
  if !Accessible_isEditableText obj then none
  else
    let role := Accessible_getRole obj
    if role = AccessibleRole.SPI_ROLE_DOCUMENT_FRAME then none
    else get_extents obj

/-! ## Event handlers -/

/-- Source `typedef void(*SPIHandler)(const AccessibleEvent *, int app_id);` with
the pointer outcome and the program state made explicit. -/
abbrev SPIHandler := AccessibleEvent → Int → Option (Int × Int) → State → State

/-- Source `on_focus`: store the probe of the event source for the
application, then `update`. -/
def on_focus : SPIHandler := fun event app_id ptr s =>
  let s1 := { s with focus_map := FocusMap.assign s.focus_map app_id (get_text_extents event.source) }
  update app_id ptr s1

/-- Source `on_activate`: `update` only. -/
def on_activate : SPIHandler := fun _event app_id ptr s =>
  update app_id ptr s

/-- Source `call`: the listener callback; `user_data` is the handler, invoked
only when the event has a source and its application resolves. -/
def call (event : AccessibleEvent) (user_data : SPIHandler)
    (ptr : Option (Int × Int)) (s : State) : State :=
  match event.source with
  | none => s
  | some _ =>
    match event.sourceApplication with
    | none => s
    | some app => user_data event (AccessibleApplication_getID app) ptr s

/-! ## Window locator -/

/-- An X window id (`Window` is an unsigned XID). -/
abbrev Window := Nat

/-- The Xlib constant `None` (`0L`): the id that names no window. -/
def None : Window := 0

/-- The `XClassHint` record filled by `XGetClassHint`. -/
structure XClassHint where
  res_name : String
  res_class : String
  deriving DecidableEq, Repr

/-- The fields of `XWMHints` relevant here; `input` is an Xlib `Bool`, an
`int` where nonzero means True. -/
structure XWMHints where
  flags : Int
  input : Int
  deriving DecidableEq, Repr

/-- What the X server answers to the three window queries of the program:
`XGetClassHint` (`none` for a zero status), `XGetWMHints` (`none` for a null
result) and `XQueryTree` (`none` for a zero status, otherwise the children
in the order returned). -/
structure XServer where
  XGetClassHint : Window → Option XClassHint
  XGetWMHints : Window → Option XWMHints
  XQueryTree : Window → Option (List Window)

/-- Source `is_cw_win`: false for `None`, for a window without class hint,
for a `res_name` other than `cellwriter`, for a window without
window-manager hints; otherwise the negation of the `input` hint. -/
def is_cw_win (X : XServer) (w : Window) : Bool :=
  if w = 0 then false
  else
    match X.XGetClassHint w with
    | none => false
    | some ch =>
      let cw := decide (ch.res_name = "cellwriter")
      if !cw then false
      else
        match X.XGetWMHints w with
        | none => false
        | some wm_hints =>
          let input := decide (wm_hints.input ≠ 0)
          !input

/-- The `for` loop of `find_cw_win` over the children `ch`, with `search`
the recursive call at the decremented depth.  A result is the window found
together with the windows whose tree was queried, in query order. -/
def find_cw_win_loop (search : Window → Window × List Window) :
    List Window → Window × List Window
  | [] => (None, [])
  | c :: cs =>
    let found := search c
    if found.1 ≠ 0 then found
    else
      let rest := find_cw_win_loop search cs
      (rest.1, found.2 ++ rest.2)

/-- Source `find_cw_win`, for a depth that is not negative.  The first component
is the returned window, the second lists the windows on which `XQueryTree`
was called, in call order. -/
def find_cw_win (X : XServer) : Window → Nat → Window × List Window
  | w, 0 =>
    if w = 0 then (None, [])
    else if is_cw_win X w then (w, [])
    else (None, [])
  | w, depth + 1 =>
    if w = 0 then (None, [])
    else if is_cw_win X w then (w, [])
    else
      match X.XQueryTree w with
      | none => (None, [w])
      | some ch =>
        let r := find_cw_win_loop (fun c => find_cw_win X c depth) ch
        (r.1, w :: r.2)

/-! ## Reference notions of the specification -/

/-- The children of a window in enumeration order; a window whose tree
cannot be queried has none. -/
def children (X : XServer) (w : Window) : List Window :=
  (X.XQueryTree w).getD []

/-- Concatenation of the listings `f c` for the windows `c` of a list, in
order. -/
def concat_map (f : Window → List Window) : List Window → List Window
  | [] => []
  | c :: cs => f c ++ concat_map f cs

/-- Pre-order listing of the windows at distance at most `d` from `w`,
siblings in enumeration order. -/
def preorder_within (X : XServer) : Nat → Window → List Window
  | 0, w => [w]
  | d + 1, w => w :: concat_map (fun c => preorder_within X d c) (children X w)

/-- The first window of a list that satisfies the match predicate, `None`
when there is none. -/
def first_match (X : XServer) (ws : List Window) : Window :=
  (ws.find? (fun v => is_cw_win X v)).getD None

/-! ## Runs -/

/-- Which of the two registered listeners an event is delivered to. -/
inductive Listener where
  | focus_listener
  | activate_listener
  deriving DecidableEq, Repr

/-- The handler a listener was created with in `main`. -/
def Listener.handler : Listener → SPIHandler
  | Listener.focus_listener => on_focus
  | Listener.activate_listener => on_activate

/-- One delivery of the event loop: the listener, the event, and what
`XQueryPointer` answers while the event is handled. -/
structure Delivery where
  listener : Listener
  event : AccessibleEvent
  ptr : Option (Int × Int)
  deriving DecidableEq, Repr

/-- Handling one delivery. -/
def step (s : State) (d : Delivery) : State :=
  call d.event d.listener.handler d.ptr s

/-- Handling a sequence of deliveries in order. -/
def run (ds : List Delivery) (s : State) : State :=
  ds.foldl step s

/-! ## A sample window tree -/

/-- A sample server.  Window 1 is the root with children 2, 4, 3 in that
order; window 4 has the single child 5.  Windows 2, 3 and 5 carry the class
hint name `cellwriter`, window 4 carries `xterm`, the root carries no class
hint.  Window 2 accepts input, windows 3 and 5 do not. -/
def sample_server : XServer :=
  { XGetClassHint := fun w =>
      if w = 2 ∨ w = 3 ∨ w = 5 then some ⟨"cellwriter", "Cellwriter"⟩
      else if w = 4 then some ⟨"xterm", "XTerm"⟩
      else none,
    XGetWMHints := fun w =>
      if w = 2 then some ⟨1, 1⟩
      else if w = 3 ∨ w = 5 then some ⟨1, 0⟩
      else none,
    XQueryTree := fun w =>
      if w = 1 then some [2, 4, 3]
      else if w = 4 then some [5]
      else if w = 0 then none
      else some [] }

/-- A second sample server, a chain: the root 1 has the single child 4
(class hint name `xterm`), whose single child 5 carries the class hint name
`cellwriter` and does not accept input. -/
def deep_server : XServer :=
  { XGetClassHint := fun w =>
      if w = 5 then some ⟨"cellwriter", "Cellwriter"⟩
      else if w = 4 then some ⟨"xterm", "XTerm"⟩
      else none,
    XGetWMHints := fun w => if w = 5 then some ⟨1, 0⟩ else none,
    XQueryTree := fun w =>
      if w = 1 then some [4]
      else if w = 4 then some [5]
      else if w = 0 then none
      else some [] }

/-! ## Process: listeners, startup and termination -/

/-- The stdlib constant `EXIT_SUCCESS`. -/
def EXIT_SUCCESS : Int := 0

/-- The stdlib constant `EXIT_FAILURE`. -/
def EXIT_FAILURE : Int := 1

/-- An `AccessibleEventListener` object made by
`SPI_createAccessibleEventListener(call, handler)`: `serial` tells the
objects apart (the order of creation), `user_data` names the handler by the
listener it is made for. -/
structure AccessibleEventListener where
  serial : Nat
  user_data : Listener
  deriving DecidableEq, Repr

/-- The calls into the AT-SPI library that `main` and `quit` make, with
their arguments; a listener argument is a pointer, `none` when null. -/
inductive SPICall where
  | SPI_createAccessibleEventListener (result : AccessibleEventListener)
  | SPI_registerGlobalEventListener (listener : Option AccessibleEventListener)
      (eventType : String)
  | SPI_deregisterGlobalEventListenerAll (listener : Option AccessibleEventListener)
  | AccessibleEventListener_unref (listener : Option AccessibleEventListener)
  | SPI_event_main
  | SPI_event_quit
  | SPI_exit
  deriving DecidableEq, Repr

/-- An open display: the server behind it and `DefaultRootWindow(dpy)`. -/
structure Display where
  server : XServer
  root : Window

/-- The globals of the program that concern the process rather than the
focus tracking: the three static listener pointers, `win`, and the log of
AT-SPI calls, oldest first.  `created` counts the listener objects made. -/
structure Process where
  focus_listener : Option AccessibleEventListener
  activate_listener : Option AccessibleEventListener
  deactivate_listener : Option AccessibleEventListener
  win : Window
  created : Nat
  spi_calls : List SPICall
  deriving DecidableEq, Repr

/-- The process at program start: the static pointers are null, `win` is
zero, no call has been made. -/
def Process.init : Process :=
  { focus_listener := none, activate_listener := none, deactivate_listener := none,
    win := 0, created := 0, spi_calls := [] }

/-- Append one AT-SPI call to the log. -/
def Process.log (p : Process) (c : SPICall) : Process :=
  { p with spi_calls := p.spi_calls ++ [c] }

/-- Source `create_listener`: a fresh listener object for the handler. -/
def create_listener (handler : Listener) (p : Process) :
    AccessibleEventListener × Process :=
  let l : AccessibleEventListener := { serial := p.created, user_data := handler }
  (l, { p.log (SPICall.SPI_createAccessibleEventListener l) with
          created := p.created + 1 })

/-- Source `quit`: three deregistrations, three releases, then
`SPI_event_quit`, each on the current value of the static pointer. -/
def quit (_sig : Int) (p : Process) : Process :=
  let p1 := p.log (SPICall.SPI_deregisterGlobalEventListenerAll p.focus_listener)
  let p2 := p1.log (SPICall.SPI_deregisterGlobalEventListenerAll p1.activate_listener)
  let p3 := p2.log (SPICall.SPI_deregisterGlobalEventListenerAll p2.deactivate_listener)
  let p4 := p3.log (SPICall.AccessibleEventListener_unref p3.focus_listener)
  let p5 := p4.log (SPICall.AccessibleEventListener_unref p4.activate_listener)
  let p6 := p5.log (SPICall.AccessibleEventListener_unref p5.deactivate_listener)
  p6.log SPICall.SPI_event_quit

/-- How the part of `main` before the event loop ends: the process exits
with a status after printing, or the event loop is entered. -/
inductive Startup where
  | exited (status : Int) (output : List String)
  | running (p : Process)
  deriving DecidableEq, Repr

/-- Source `main` up to the call of `SPI_event_main`.  `spi_init` is the
value returned by `SPI_init()`, `dpy` the result of `XOpenDisplay` (`none`
when null). -/
def main_startup (spi_init : Int) (dpy : Option Display) : Startup :=
  if spi_init ≠ 0 then
    Startup.exited EXIT_FAILURE ["Error: AT-SPI not available\n"]
  else
    match dpy with
    | none => Startup.exited EXIT_FAILURE ["Error: Can\x27t connect to display\n"]
    | some d =>
      let win := (find_cw_win d.server d.root 1).1
      if win = 0 then
        Startup.exited EXIT_FAILURE ["Error: Cellwriter window not found\n"]
      else
        let p0 := { Process.init with win := win }
        let c1 := create_listener Listener.focus_listener p0
        let p1 := { c1.2 with focus_listener := some c1.1 }
        let c2 := create_listener Listener.activate_listener p1
        let p2 := { c2.2 with activate_listener := some c2.1 }
        let p3 := p2.log (SPICall.SPI_registerGlobalEventListener p2.focus_listener "focus:")
        let p4 := p3.log
          (SPICall.SPI_registerGlobalEventListener p3.activate_listener "window:activate")
        Startup.running (p4.log SPICall.SPI_event_main)

/-- What a whole run of the program leaves behind: exit status, printed
lines, the AT-SPI calls made, and the focus-tracking state. -/
structure Outcome where
  status : Int
  output : List String
  spi_calls : List SPICall
  state : State
  deriving DecidableEq, Repr

/-- Source `main` as a whole run: startup, the deliveries `ds` handled by the
event loop, the interrupt signal `sig` running `quit`, then `SPI_exit`
returning `garbage`. -/
def main (spi_init : Int) (dpy : Option Display) (ds : List Delivery)
    (sig : Int) (garbage : Int) : Outcome :=
  match main_startup spi_init dpy with
  | Startup.exited status output =>
    { status := status, output := output, spi_calls := [], state := State.init }
  | Startup.running p =>
    let s := run ds State.init
    let p1 := (quit sig p).log SPICall.SPI_exit
    let output := if garbage ≠ 0 then ["Garbage: " ++ toString garbage ++ "\n"] else []
    { status := EXIT_SUCCESS, output := output, spi_calls := p1.spi_calls, state := s }

/-- The registrations in a call log: listener pointer and event type of
every `SPI_registerGlobalEventListener` call, in order. -/
def registrations (log : List SPICall) : List (Option AccessibleEventListener × String) :=
  log.filterMap (fun c =>
    match c with
    | SPICall.SPI_registerGlobalEventListener l t => some (l, t)
    | _ => none)

/-- The pointers passed to `SPI_deregisterGlobalEventListenerAll`, in order. -/
def deregistration_args (log : List SPICall) : List (Option AccessibleEventListener) :=
  log.filterMap (fun c =>
    match c with
    | SPICall.SPI_deregisterGlobalEventListenerAll l => some l
    | _ => none)

/-- The pointers passed to `AccessibleEventListener_unref`, in order. -/
def release_args (log : List SPICall) : List (Option AccessibleEventListener) :=
  log.filterMap (fun c =>
    match c with
    | SPICall.AccessibleEventListener_unref l => some l
    | _ => none)

/-- The listener objects among a list of pointers: the null pointers are
dropped. -/
def listener_objects (ptrs : List (Option AccessibleEventListener)) :
    List AccessibleEventListener :=
  ptrs.filterMap (fun l => l)

/-! ## Command traces -/

/-- A show command at a position other than the first is directly preceded
by a hide command. -/
def ShowAfterHide (commands : List String) : Prop :=
  List.Chain' (fun a b => b = show_command → a = hide_command) commands

/-- No two adjacent commands are both the show command. -/
def NoDoubleShow (commands : List String) : Prop :=
  List.Chain' (fun a b => ¬ (a = show_command ∧ b = show_command)) commands

/-- The invariant of the visibility controller: the trace holds only the
two commands, every show that is not first follows a hide, and the flag is
set exactly when the last command is the show command. -/
def TraceInv (s : State) : Prop :=
  ShowAfterHide s.commands ∧
    (∀ c ∈ s.commands, c = hide_command ∨ c = show_command) ∧
    (s.active = true ↔ s.commands.getLast? = some show_command)

/-! ## Visibility controller: the decision table -/

/-- C1: when the registry entry of `A` is a rectangle, the helper is shown
and the pointer query succeeds, `update A` runs exactly the hide command and
then the show command, and the helper is shown afterwards. -/
theorem update_rect_while_shown (s : State) (A : Int) (r : SPIRect)
    (ptr : Option (Int × Int))
    (hreg : FocusMap.find s.focus_map A = some (some r))
    (hshown : s.active = true)
    (hptr : query_pointer ptr = true) :
    (update A ptr s).commands = s.commands ++ [hide_command, show_command] ∧
      (update A ptr s).active = true := by
  simp [update, hreg, show_cellwriter, hptr, hshown, hide_cellwriter, system]

/-- C1, at a concrete state: application 7 holds a rectangle and the helper
is shown. -/
theorem update_rect_while_shown_witness :
    (update 7 (some (3, 4))
        { focus_map := [(7, some ⟨10, 20, 100, 30⟩)], current_app := 7,
          active := true, commands := [show_command] }).commands
        = [show_command] ++ [hide_command, show_command] ∧
      (update 7 (some (3, 4))
        { focus_map := [(7, some ⟨10, 20, 100, 30⟩)], current_app := 7,
          active := true, commands := [show_command] }).active = true :=
  update_rect_while_shown
    { focus_map := [(7, some ⟨10, 20, 100, 30⟩)], current_app := 7,
      active := true, commands := [show_command] }
    7 ⟨10, 20, 100, 30⟩ (some (3, 4)) (by decide) (by decide) (by decide)

/-- C2: when `A` has no entry in the registry, `update A` runs no command
and leaves the visibility flag and the registry as they were, whatever the
flag and the pointer outcome; only `current_app` is written. -/
theorem update_unknown_inert (s : State) (A : Int) (ptr : Option (Int × Int))
    (hreg : FocusMap.find s.focus_map A = none) :
    (update A ptr s).commands = s.commands ∧
      (update A ptr s).active = s.active ∧
      (update A ptr s).focus_map = s.focus_map ∧
      update A ptr s = { s with current_app := A } := by
  simp [update, hreg]

/-- C2, at a concrete state: application 9 is unknown while 7 is shown. -/
theorem update_unknown_inert_witness :
    (update 9 none
        { focus_map := [(7, some ⟨10, 20, 100, 30⟩)], current_app := 7,
          active := true, commands := [show_command] }).commands = [show_command] :=
  (update_unknown_inert
    { focus_map := [(7, some ⟨10, 20, 100, 30⟩)], current_app := 7,
      active := true, commands := [show_command] }
    9 none (by decide)).1

/-- C3: when the registry entry of `A` is the empty rectangle pointer,
`update A` runs exactly one command, the hide command, and the helper is
hidden afterwards, whatever the flag was; doing it a second time runs the
hide command again and the helper stays hidden. -/
theorem update_notarget_hides (s : State) (A : Int) (p1 p2 : Option (Int × Int))
    (hreg : FocusMap.find s.focus_map A = some none) :
    (update A p1 s).commands = s.commands ++ [hide_command] ∧
      (update A p1 s).active = false ∧
      (update A p2 (update A p1 s)).commands
        = s.commands ++ [hide_command] ++ [hide_command] ∧
      (update A p2 (update A p1 s)).active = false := by
  have h1 : update A p1 s
      = { s with current_app := A, active := false,
                 commands := s.commands ++ [hide_command] } := by
    simp [update, hreg, hide_cellwriter, system]
  rw [h1]
  simp [update, hreg, hide_cellwriter, system]

/-- C3, at a concrete state: application 7 holds the empty pointer while
the helper is shown. -/
theorem update_notarget_hides_witness :
    (update 7 (some (0, 0))
        { focus_map := [(7, none)], current_app := 7, active := true,
          commands := [show_command] }).commands
      = [show_command] ++ [hide_command] :=
  (update_notarget_hides
    { focus_map := [(7, none)], current_app := 7, active := true,
      commands := [show_command] }
    7 (some (0, 0)) none (by decide)).1

/-- C9: when the registry entry of `A` is a rectangle and the pointer query
fails, `update A` runs no command and leaves the visibility flag as it
was. -/
theorem update_rect_pointer_failure (s : State) (A : Int) (r : SPIRect)
    (ptr : Option (Int × Int))
    (hreg : FocusMap.find s.focus_map A = some (some r))
    (hptr : query_pointer ptr = false) :
    (update A ptr s).commands = s.commands ∧
      (update A ptr s).active = s.active := by
  simp [update, hreg, show_cellwriter, hptr]

/-- C9, at a concrete state: the helper is shown and the pointer cannot be
queried. -/
theorem update_rect_pointer_failure_witness :
    (update 7 none
        { focus_map := [(7, some ⟨10, 20, 100, 30⟩)], current_app := 7,
          active := true, commands := [show_command] }).commands = [show_command] ∧
      (update 7 none
        { focus_map := [(7, some ⟨10, 20, 100, 30⟩)], current_app := 7,
          active := true, commands := [show_command] }).active = true :=
  update_rect_pointer_failure
    { focus_map := [(7, some ⟨10, 20, 100, 30⟩)], current_app := 7,
      active := true, commands := [show_command] }
    7 ⟨10, 20, 100, 30⟩ none (by decide) (by decide)

/-- The two commands are different strings. -/
theorem hide_command_ne_show_command : hide_command ≠ show_command := by decide

/-! ## Geometry prober -/

/-- C5: for an accessible object `o`, `get_text_extents` returns the empty
pointer exactly when `o` is not editable text, or its role is document
frame, or it has no component interface; in every other case it returns the
screen-coordinate extents of the component.  An editable object whose role
is document frame gives the empty pointer. -/
theorem get_text_extents_spec (o : AccessibleObj) :
    (get_text_extents (some o) = none ↔
        (o.isEditableText = false ∨
          o.role = AccessibleRole.SPI_ROLE_DOCUMENT_FRAME ∨
          o.component = none)) ∧
      (∀ comp : AccessibleComponent,
        o.isEditableText = true →
        o.role ≠ AccessibleRole.SPI_ROLE_DOCUMENT_FRAME →
        o.component = some comp →
        get_text_extents (some o)
          = some (AccessibleComponent_getExtents comp
              AccessibleCoordType.SPI_COORD_TYPE_SCREEN)) ∧
      (o.isEditableText = true →
        o.role = AccessibleRole.SPI_ROLE_DOCUMENT_FRAME →
        get_text_extents (some o) = none) := by
  obtain ⟨ed, role, comp⟩ := o
  refine ⟨?_, ?_, ?_⟩
  · cases ed <;> cases comp <;>
      by_cases hr : role = AccessibleRole.SPI_ROLE_DOCUMENT_FRAME <;>
      simp [get_text_extents, get_extents, Accessible_isEditableText,
        Accessible_getRole, Accessible_getComponent, hr]
  · intro c hed hr hc
    simp only at hed hr hc
    simp [get_text_extents, get_extents, Accessible_isEditableText,
      Accessible_getRole, Accessible_getComponent, hed, hr, hc]
  · intro hed hr
    simp only at hed hr
    simp [get_text_extents, Accessible_isEditableText, Accessible_getRole, hed, hr]

/-- C5, at concrete objects: an editable text field with a component gives
its screen extents, and an editable document frame gives the empty
pointer. -/
theorem get_text_extents_spec_witness :
    get_text_extents
        (some ⟨true, AccessibleRole.SPI_ROLE_OTHER 61,
          some ⟨⟨10, 20, 100, 30⟩, ⟨1, 2, 100, 30⟩⟩⟩)
        = some ⟨10, 20, 100, 30⟩ ∧
      get_text_extents
        (some ⟨true, AccessibleRole.SPI_ROLE_DOCUMENT_FRAME,
          some ⟨⟨10, 20, 100, 30⟩, ⟨1, 2, 100, 30⟩⟩⟩)
        = none :=
  ⟨(get_text_extents_spec
      ⟨true, AccessibleRole.SPI_ROLE_OTHER 61,
        some ⟨⟨10, 20, 100, 30⟩, ⟨1, 2, 100, 30⟩⟩⟩).2.1
      ⟨⟨10, 20, 100, 30⟩, ⟨1, 2, 100, 30⟩⟩ rfl (by decide) rfl,
   (get_text_extents_spec
      ⟨true, AccessibleRole.SPI_ROLE_DOCUMENT_FRAME,
        some ⟨⟨10, 20, 100, 30⟩, ⟨1, 2, 100, 30⟩⟩⟩).2.2 rfl rfl⟩

/-! ## Window locator -/

/-- C6: at depth 0, a window that is not itself a match gives `None`, and
no window tree is queried, whatever the server would answer about its
children. -/
theorem find_cw_win_depth_zero (X : XServer) (w : Window)
    (hroot : is_cw_win X w = false) :
    find_cw_win X w 0 = (None, []) := by
  simp [find_cw_win, hroot]

/-- C8: for a window `w` (an id other than `None`), `is_cw_win` holds
exactly when the class hint of `w` has the name `cellwriter` and the
window-manager hints of `w` have a False `input` field; a window of that
class name whose `input` field is True is not a match. -/
theorem is_cw_win_spec (X : XServer) (w : Window) (hw : w ≠ None) :
    (is_cw_win X w = true ↔
        ∃ ch hints, X.XGetClassHint w = some ch ∧ ch.res_name = "cellwriter" ∧
          X.XGetWMHints w = some hints ∧ hints.input = 0) ∧
      (∀ ch hints, X.XGetClassHint w = some ch → ch.res_name = "cellwriter" →
          X.XGetWMHints w = some hints → hints.input ≠ 0 →
          is_cw_win X w = false) := by
  have hw0 : w ≠ 0 := hw
  refine ⟨?_, ?_⟩
  · unfold is_cw_win
    rw [if_neg hw0]
    cases hc : X.XGetClassHint w with
    | none => simp
    | some ch =>
      by_cases hn : ch.res_name = "cellwriter"
      · cases hh : X.XGetWMHints w with
        | none => simp [hn]
        | some hints => simp [hn]
      · simp [hn]
  · intro ch hints hc hn hh hi
    simp [is_cw_win, hw0, hc, hn, hh, hi]

/-- C6, on the sample tree: the root does not match, its child 3 does, and
depth 0 still gives `None` without any tree query. -/
theorem find_cw_win_depth_zero_witness :
    is_cw_win sample_server 3 = true ∧
      find_cw_win sample_server 1 0 = (None, []) :=
  ⟨by decide, find_cw_win_depth_zero sample_server 1 (by decide)⟩

/-- C8, on the sample tree: window 3 has the class name and a False input
hint, so it matches; window 2 has the class name and a True input hint, so
it does not. -/
theorem is_cw_win_spec_witness :
    is_cw_win sample_server 3 = true ∧ is_cw_win sample_server 2 = false :=
  ⟨(is_cw_win_spec sample_server 3 (by decide)).1.mpr
      ⟨⟨"cellwriter", "Cellwriter"⟩, ⟨1, 0⟩, by decide, by decide, by decide, by decide⟩,
   (is_cw_win_spec sample_server 2 (by decide)).2
      ⟨"cellwriter", "Cellwriter"⟩ ⟨1, 1⟩ (by decide) (by decide) (by decide) (by decide)⟩

/-- The id `None` is never a match. -/
theorem is_cw_win_None (X : XServer) : is_cw_win X None = false := by
  simp [is_cw_win, None]

/-- A window that matches is not `None`. -/
theorem ne_None_of_is_cw_win (X : XServer) (w : Window)
    (h : is_cw_win X w = true) : w ≠ None := by
  intro h0
  rw [h0, is_cw_win_None] at h
  exact Bool.false_ne_true h

/-- The first match of a list is `None` exactly when the search for a match
fails. -/
theorem first_match_eq_None_iff (X : XServer) (ws : List Window) :
    first_match X ws = None ↔ ws.find? (fun v => is_cw_win X v) = none := by
  unfold first_match
  cases h : ws.find? (fun v => is_cw_win X v) with
  | none => simp
  | some v =>
    have hv : is_cw_win X v = true := by simpa using List.find?_some h
    simpa using ne_None_of_is_cw_win X v hv

/-- The first match of a concatenation: that of the left part when it has
one, otherwise that of the right part. -/
theorem first_match_append (X : XServer) (a b : List Window) :
    first_match X (a ++ b)
      = if first_match X a ≠ None then first_match X a else first_match X b := by
  by_cases h : first_match X a = None
  · have hn := (first_match_eq_None_iff X a).mp h
    simp [h, first_match, List.find?_append, hn]
  · have hn : a.find? (fun v => is_cw_win X v) ≠ none :=
      fun hc => h ((first_match_eq_None_iff X a).mpr hc)
    cases hv : a.find? (fun v => is_cw_win X v) with
    | none => exact absurd hv hn
    | some v =>
      have hv0 : v ≠ None := by simpa [first_match, hv] using h
      simp [first_match, List.find?_append, hv, hv0]

/-- The loop returns the first match among the listings of the children as
soon as the recursive search returns the first match of each listing. -/
theorem find_cw_win_loop_first (X : XServer)
    (search : Window → Window × List Window) (listing : Window → List Window)
    (cs : List Window)
    (h : ∀ c ∈ cs, (search c).1 = first_match X (listing c)) :
    (find_cw_win_loop search cs).1 = first_match X (concat_map listing cs) := by
  induction cs with
  | nil => simp [find_cw_win_loop, concat_map, first_match]
  | cons c cs ih =>
    have hc := h c (List.mem_cons_self c cs)
    have ih1 := ih (fun d hd => h d (List.mem_cons_of_mem c hd))
    simp only [find_cw_win_loop, concat_map]
    rw [first_match_append, ← hc]
    by_cases h0 : (search c).1 = None
    · have h0z : (search c).1 = 0 := h0
      simp [h0z, ih1, None]
    · have h0z : ¬ (search c).1 = 0 := h0
      simp [h0z, None]

/-- The window returned by `find_cw_win` is the first match of the
pre-order listing within the depth, provided `None` has no children. -/
theorem find_cw_win_first (X : XServer) (hNone : children X None = [])
    (d : Nat) (w : Window) :
    (find_cw_win X w d).1 = first_match X (preorder_within X d w) := by
  induction d generalizing w with
  | zero =>
    by_cases hw : w = 0
    · subst hw
      have := is_cw_win_None X
      simp [find_cw_win, preorder_within, first_match, None] at this ⊢
      simp [this]
    · by_cases hm : is_cw_win X w = true
      · simp [find_cw_win, preorder_within, first_match, hw, hm]
      · simp [find_cw_win, preorder_within, first_match, hw, hm]
  | succ d ih =>
    by_cases hw : w = 0
    · subst hw
      have h0 := is_cw_win_None X
      have hc : children X 0 = [] := hNone
      simp only [None] at h0
      simp [find_cw_win, preorder_within, first_match, hc, concat_map, h0]
    · by_cases hm : is_cw_win X w = true
      · simp [find_cw_win, preorder_within, first_match, hw, hm]
      · have hloop := fun cs => find_cw_win_loop_first X
          (fun c => find_cw_win X c d) (fun c => preorder_within X d c) cs
          (fun c _ => ih c)
        cases hq : X.XQueryTree w with
        | none =>
          simp [find_cw_win, preorder_within, first_match, hw, hm, hq, children,
            concat_map]
        | some ch =>
          have := hloop ch
          simp only [first_match] at this
          simp [find_cw_win, preorder_within, first_match, hw, hm, hq, children, this]

/-- C7: for a server on which `None` has no children, `find_cw_win` from
`w` with a depth budget `max_depth` returns the first window of the
pre-order listing of the windows within that depth (siblings in enumeration
order) that satisfies `is_cw_win`: every window listed before the returned
one fails the predicate.  It returns `None` exactly when no listed window
satisfies the predicate. -/
theorem find_cw_win_preorder (X : XServer) (hNone : children X None = [])
    (w : Window) (max_depth : Nat) :
    (find_cw_win X w max_depth).1 = first_match X (preorder_within X max_depth w) ∧
      ((find_cw_win X w max_depth).1 = None ↔
        ∀ v ∈ preorder_within X max_depth w, is_cw_win X v = false) ∧
      ((find_cw_win X w max_depth).1 ≠ None →
        is_cw_win X (find_cw_win X w max_depth).1 = true ∧
        ∃ before after,
          preorder_within X max_depth w
            = before ++ (find_cw_win X w max_depth).1 :: after ∧
          ∀ v ∈ before, is_cw_win X v = false) := by
  have hfirst := find_cw_win_first X hNone max_depth w
  refine ⟨hfirst, ?_, ?_⟩
  · rw [hfirst, first_match_eq_None_iff, List.find?_eq_none]
    simp
  · intro hne
    rw [hfirst] at hne ⊢
    cases hf : (preorder_within X max_depth w).find? (fun v => is_cw_win X v) with
    | none => exact absurd ((first_match_eq_None_iff X _).mpr hf) hne
    | some r =>
      have hr : first_match X (preorder_within X max_depth w) = r := by
        simp [first_match, hf]
      obtain ⟨hp, before, after, hsplit, hbefore⟩ := List.find?_eq_some.mp hf
      rw [hr]
      refine ⟨by simpa using hp, before, after, hsplit, ?_⟩
      intro v hv
      simpa using hbefore v hv

/-- C7, on the sample tree with depth 2: the listing is 1, 2, 4, 5, 3 and
the window returned is 5, the first match in pre-order, although the match
3 is nearer to the root. -/
theorem find_cw_win_preorder_witness :
    preorder_within sample_server 2 1 = [1, 2, 4, 5, 3] ∧
      (find_cw_win sample_server 1 2).1 = 5 ∧
      (find_cw_win sample_server 1 2).1
        = first_match sample_server (preorder_within sample_server 2 1) :=
  ⟨by decide, by decide, (find_cw_win_preorder sample_server (by decide) 1 2).1⟩

/-! ## Focus registry -/

/-- Looking up a key right after assigning it gives the assigned value. -/
theorem FocusMap.find_assign_self (m : FocusMap) (k : Int) (v : Rect) :
    FocusMap.find (FocusMap.assign m k v) k = some v := by
  induction m with
  | nil => simp [FocusMap.assign, FocusMap.find]
  | cons p m ih =>
    obtain ⟨k1, v1⟩ := p
    by_cases h1 : k = k1
    · simp [FocusMap.assign, FocusMap.find, h1]
    · by_cases h2 : k < k1
      · simp [FocusMap.assign, FocusMap.find, h1, h2]
      · simp [FocusMap.assign, FocusMap.find, h1, h2, ih]

/-- Assigning a key leaves the lookup of every other key as it was. -/
theorem FocusMap.find_assign_other (m : FocusMap) (k j : Int) (v : Rect)
    (hj : j ≠ k) :
    FocusMap.find (FocusMap.assign m k v) j = FocusMap.find m j := by
  induction m with
  | nil => simp [FocusMap.assign, FocusMap.find, hj]
  | cons p m ih =>
    obtain ⟨k1, v1⟩ := p
    by_cases h1 : k = k1
    · subst h1
      simp [FocusMap.assign, FocusMap.find, hj]
    · by_cases h2 : k < k1
      · simp [FocusMap.assign, FocusMap.find, h1, h2, hj]
      · simp [FocusMap.assign, FocusMap.find, h1, h2, ih]

/-- Every entry after an assignment is the assigned one or an old one. -/
theorem FocusMap.mem_assign (m : FocusMap) (k : Int) (v : Rect) (p : Int × Rect)
    (hp : p ∈ FocusMap.assign m k v) : p = (k, v) ∨ p ∈ m := by
  induction m with
  | nil => simpa [FocusMap.assign] using hp
  | cons q m ih =>
    obtain ⟨k1, v1⟩ := q
    by_cases h1 : k = k1
    · simp only [FocusMap.assign, h1, if_true, List.mem_cons] at hp
      rcases hp with hp | hp
      · exact Or.inl (by rw [hp, h1])
      · exact Or.inr (List.mem_cons_of_mem _ hp)
    · by_cases h2 : k < k1
      · simp only [FocusMap.assign, h1, h2, if_true, if_false, List.mem_cons] at hp
        rcases hp with hp | hp | hp
        · exact Or.inl hp
        · exact Or.inr (by rw [hp]; exact List.mem_cons_self _ _)
        · exact Or.inr (List.mem_cons_of_mem _ hp)
      · simp only [FocusMap.assign, h1, h2, if_false, List.mem_cons] at hp
        rcases hp with hp | hp
        · exact Or.inr (by rw [hp]; exact List.mem_cons_self _ _)
        · rcases ih hp with h | h
          · exact Or.inl h
          · exact Or.inr (List.mem_cons_of_mem _ h)

/-- Assignment keeps the keys strictly increasing. -/
theorem FocusMap.assign_sorted (m : FocusMap) (k : Int) (v : Rect)
    (h : FocusMap.Sorted m) : FocusMap.Sorted (FocusMap.assign m k v) := by
  induction m with
  | nil => simp [FocusMap.assign, FocusMap.Sorted]
  | cons q m ih =>
    obtain ⟨k1, v1⟩ := q
    unfold FocusMap.Sorted at h ih ⊢
    rw [List.pairwise_cons] at h
    obtain ⟨hhead, htail⟩ := h
    by_cases h1 : k = k1
    · simp only [FocusMap.assign, h1, if_true]
      exact List.pairwise_cons.mpr ⟨hhead, htail⟩
    · by_cases h2 : k < k1
      · simp only [FocusMap.assign, h1, h2, if_true, if_false]
        refine List.pairwise_cons.mpr ⟨?_, List.pairwise_cons.mpr ⟨hhead, htail⟩⟩
        intro p hp
        rcases List.mem_cons.mp hp with hp | hp
        · rw [hp]; exact h2
        · exact lt_trans h2 (hhead p hp)
      · simp only [FocusMap.assign, h1, h2, if_false]
        refine List.pairwise_cons.mpr ⟨?_, ih htail⟩
        intro p hp
        rcases FocusMap.mem_assign m k v p hp with hp | hp
        · rw [hp]
          exact lt_of_le_of_ne (not_lt.mp h2) (fun hc => h1 hc.symm)
        · exact hhead p hp

/-- A key below every stored key has no entry. -/
theorem FocusMap.entries_eq_zero (m : FocusMap) (k : Int)
    (h : ∀ p ∈ m, k < p.1) : FocusMap.entries m k = 0 := by
  unfold FocusMap.entries
  rw [List.length_eq_zero, List.filter_eq_nil_iff]
  intro p hp
  have := h p hp
  simp only [decide_eq_true_eq]
  omega

/-- After an assignment into a map with strictly increasing keys the
assigned key has exactly one entry. -/
theorem FocusMap.entries_assign_self (m : FocusMap) (k : Int) (v : Rect)
    (h : FocusMap.Sorted m) : FocusMap.entries (FocusMap.assign m k v) k = 1 := by
  induction m with
  | nil => simp [FocusMap.assign, FocusMap.entries]
  | cons q m ih =>
    obtain ⟨k1, v1⟩ := q
    unfold FocusMap.Sorted at h ih
    rw [List.pairwise_cons] at h
    obtain ⟨hhead, htail⟩ := h
    by_cases h1 : k = k1
    · have hz := FocusMap.entries_eq_zero m k (fun p hp => by rw [h1]; exact hhead p hp)
      unfold FocusMap.entries at hz ⊢
      simp [FocusMap.assign, h1, List.filter_cons]
      simpa [h1] using hz
    · by_cases h2 : k < k1
      · have hz := FocusMap.entries_eq_zero m k
          (fun p hp => lt_trans h2 (hhead p hp))
        have h1s : ¬ k1 = k := fun hc => h1 hc.symm
        unfold FocusMap.entries at hz ⊢
        simp [FocusMap.assign, h1, h2, List.filter_cons, h1s]
        simpa using hz
      · have h1s : ¬ k1 = k := fun hc => h1 hc.symm
        have := ih htail
        unfold FocusMap.entries at this ⊢
        simp [FocusMap.assign, h1, h2, List.filter_cons, h1s]
        simpa using this

/-- The registry is never written by `update`. -/
theorem update_focus_map (A : Int) (ptr : Option (Int × Int)) (s : State) :
    (update A ptr s).focus_map = s.focus_map := by
  unfold update
  simp only
  cases FocusMap.find s.focus_map A with
  | none => rfl
  | some e =>
    cases e with
    | none => simp [hide_cellwriter, system]
    | some r =>
      cases hp : query_pointer ptr <;> cases ha : s.active <;>
        simp [show_cellwriter, hide_cellwriter, system, hp, ha]

/-- The registry after `on_focus`: one assignment for the application. -/
theorem on_focus_focus_map (event : AccessibleEvent) (A : Int)
    (ptr : Option (Int × Int)) (s : State) :
    (on_focus event A ptr s).focus_map
      = FocusMap.assign s.focus_map A (get_text_extents event.source) := by
  simp [on_focus, update_focus_map]

/-- Handling a delivery keeps the keys of the registry strictly increasing. -/
theorem step_sorted (s : State) (d : Delivery)
    (h : FocusMap.Sorted s.focus_map) : FocusMap.Sorted (step s d).focus_map := by
  obtain ⟨l, ev, ptr⟩ := d
  unfold step call
  simp only
  cases ev.source with
  | none => exact h
  | some o =>
    cases ev.sourceApplication with
    | none => exact h
    | some app =>
      cases l with
      | focus_listener =>
        simp only [Listener.handler]
        rw [on_focus_focus_map]
        exact FocusMap.assign_sorted _ _ _ h
      | activate_listener =>
        simp only [Listener.handler, on_activate]
        rw [update_focus_map]
        exact h

/-- Every state reached from a state with strictly increasing registry keys
has strictly increasing registry keys. -/
theorem run_sorted (ds : List Delivery) (s : State)
    (h : FocusMap.Sorted s.focus_map) : FocusMap.Sorted (run ds s).focus_map := by
  induction ds generalizing s with
  | nil => exact h
  | cons d ds ih => exact ih (step s d) (step_sorted s d h)

/-- Every state reached from program start has strictly increasing registry
keys. -/
theorem run_init_sorted (ds : List Delivery) :
    FocusMap.Sorted (run ds State.init).focus_map :=
  run_sorted ds State.init (by simp [State.init, FocusMap.Sorted])

/-- Every value of the registry is the probe of some accessible object. -/
theorem get_text_extents_onto (T : Rect) : ∃ obj : Accessible, get_text_extents obj = T := by
  cases T with
  | none => exact ⟨none, by simp [get_text_extents, Accessible_isEditableText]⟩
  | some r =>
    exact ⟨some ⟨true, AccessibleRole.SPI_ROLE_OTHER 0, some ⟨r, r⟩⟩, by
      simp [get_text_extents, get_extents, Accessible_isEditableText,
        Accessible_getRole, Accessible_getComponent, AccessibleComponent_getExtents]⟩

/-- C4: in any state reached from program start, after two `on_focus`
calls for the same application `A`, the first storing the target `T1` and
the second the target `T2`, the lookup of `A` gives `T2` whatever `T1` was,
and the registry holds exactly one entry for `A`. -/
theorem on_focus_last_write_wins (ds : List Delivery) (A : Int)
    (e1 e2 : AccessibleEvent) (p1 p2 : Option (Int × Int)) (T1 T2 : Rect)
    (h1 : get_text_extents e1.source = T1)
    (h2 : get_text_extents e2.source = T2) :
    FocusMap.find
        (on_focus e2 A p2 (on_focus e1 A p1 (run ds State.init))).focus_map A
        = some T2 ∧
      FocusMap.entries
        (on_focus e2 A p2 (on_focus e1 A p1 (run ds State.init))).focus_map A
        = 1 := by
  rw [on_focus_focus_map, on_focus_focus_map, h1, h2]
  refine ⟨FocusMap.find_assign_self _ _ _, ?_⟩
  exact FocusMap.entries_assign_self _ _ _
    (FocusMap.assign_sorted _ _ _ (run_init_sorted ds))

/-- C4, at program start: application 7 first focuses an editable field
and then a non-editable object; the lookup gives the empty pointer and
there is one entry for 7. -/
theorem on_focus_last_write_wins_witness :
    FocusMap.find
        (on_focus ⟨some ⟨false, AccessibleRole.SPI_ROLE_OTHER 1, none⟩, some ⟨7⟩⟩ 7 none
          (on_focus
            ⟨some ⟨true, AccessibleRole.SPI_ROLE_OTHER 61,
              some ⟨⟨10, 20, 100, 30⟩, ⟨1, 2, 100, 30⟩⟩⟩, some ⟨7⟩⟩
            7 (some (3, 4)) (run [] State.init))).focus_map 7
        = some none ∧
      FocusMap.entries
        (on_focus ⟨some ⟨false, AccessibleRole.SPI_ROLE_OTHER 1, none⟩, some ⟨7⟩⟩ 7 none
          (on_focus
            ⟨some ⟨true, AccessibleRole.SPI_ROLE_OTHER 61,
              some ⟨⟨10, 20, 100, 30⟩, ⟨1, 2, 100, 30⟩⟩⟩, some ⟨7⟩⟩
            7 (some (3, 4)) (run [] State.init))).focus_map 7
        = 1 :=
  on_focus_last_write_wins [] 7
    ⟨some ⟨true, AccessibleRole.SPI_ROLE_OTHER 61,
      some ⟨⟨10, 20, 100, 30⟩, ⟨1, 2, 100, 30⟩⟩⟩, some ⟨7⟩⟩
    ⟨some ⟨false, AccessibleRole.SPI_ROLE_OTHER 1, none⟩, some ⟨7⟩⟩
    (some (3, 4)) none (some ⟨10, 20, 100, 30⟩) none (by decide) (by decide)

/-! ## Scenario -/

/-- C10: from program start, `on_focus` for application `A` on an editable
object that is not a document frame and whose component has screen extents
`r`, with the pointer query succeeding, leaves the registry holding exactly
the entry `r` for `A`, runs exactly the show command and sets the flag; a
following `on_activate` for another application `B`, which has no entry,
runs no further command, leaves the flag set and the registry as it was. -/
theorem scenario_focus_then_activate (A B : Int) (r : SPIRect)
    (e1 e2 : AccessibleEvent) (o : AccessibleObj) (comp : AccessibleComponent)
    (p1 p2 : Option (Int × Int))
    (hAB : A ≠ B)
    (hsrc : e1.source = some o)
    (hed : o.isEditableText = true)
    (hrole : o.role ≠ AccessibleRole.SPI_ROLE_DOCUMENT_FRAME)
    (hcomp : o.component = some comp)
    (hext : AccessibleComponent_getExtents comp
      AccessibleCoordType.SPI_COORD_TYPE_SCREEN = r)
    (hptr : query_pointer p1 = true) :
    (on_focus e1 A p1 State.init).focus_map = [(A, some r)] ∧
      FocusMap.find (on_focus e1 A p1 State.init).focus_map A = some (some r) ∧
      (on_focus e1 A p1 State.init).commands = [show_command] ∧
      (on_focus e1 A p1 State.init).active = true ∧
      FocusMap.find (on_focus e1 A p1 State.init).focus_map B = none ∧
      (on_activate e2 B p2 (on_focus e1 A p1 State.init)).commands = [show_command] ∧
      (on_activate e2 B p2 (on_focus e1 A p1 State.init)).active = true ∧
      (on_activate e2 B p2 (on_focus e1 A p1 State.init)).focus_map = [(A, some r)] := by
  have hprobe : get_text_extents e1.source = some r := by
    rw [hsrc]
    simp [get_text_extents, get_extents, Accessible_isEditableText,
      Accessible_getRole, Accessible_getComponent, hed, hrole, hcomp, hext]
  have hBA : ¬ B = A := fun hc => hAB hc.symm
  have hs1 : on_focus e1 A p1 State.init
      = { focus_map := [(A, some r)], current_app := A, active := true,
          commands := [show_command] } := by
    simp [on_focus, hprobe, State.init, FocusMap.assign, update, FocusMap.find,
      show_cellwriter, hptr, system]
  rw [hs1]
  simp [on_activate, update, FocusMap.find, hBA]

/-- C10, at the values of the scenario: `A = 7`, `r = (10, 20, 100, 30)`,
`B = 9`. -/
theorem scenario_focus_then_activate_witness :
    (on_focus
        ⟨some ⟨true, AccessibleRole.SPI_ROLE_OTHER 61,
          some ⟨⟨10, 20, 100, 30⟩, ⟨1, 2, 100, 30⟩⟩⟩, some ⟨7⟩⟩
        7 (some (3, 4)) State.init).focus_map = [(7, some ⟨10, 20, 100, 30⟩)] ∧
      (on_focus
        ⟨some ⟨true, AccessibleRole.SPI_ROLE_OTHER 61,
          some ⟨⟨10, 20, 100, 30⟩, ⟨1, 2, 100, 30⟩⟩⟩, some ⟨7⟩⟩
        7 (some (3, 4)) State.init).commands = [show_command] ∧
      (on_activate ⟨some ⟨false, AccessibleRole.SPI_ROLE_OTHER 23, none⟩, some ⟨9⟩⟩
        9 (some (3, 4))
        (on_focus
          ⟨some ⟨true, AccessibleRole.SPI_ROLE_OTHER 61,
            some ⟨⟨10, 20, 100, 30⟩, ⟨1, 2, 100, 30⟩⟩⟩, some ⟨7⟩⟩
          7 (some (3, 4)) State.init)).commands = [show_command] ∧
      (on_activate ⟨some ⟨false, AccessibleRole.SPI_ROLE_OTHER 23, none⟩, some ⟨9⟩⟩
        9 (some (3, 4))
        (on_focus
          ⟨some ⟨true, AccessibleRole.SPI_ROLE_OTHER 61,
            some ⟨⟨10, 20, 100, 30⟩, ⟨1, 2, 100, 30⟩⟩⟩, some ⟨7⟩⟩
          7 (some (3, 4)) State.init)).active = true :=
  have h := scenario_focus_then_activate 7 9 ⟨10, 20, 100, 30⟩
    ⟨some ⟨true, AccessibleRole.SPI_ROLE_OTHER 61,
      some ⟨⟨10, 20, 100, 30⟩, ⟨1, 2, 100, 30⟩⟩⟩, some ⟨7⟩⟩
    ⟨some ⟨false, AccessibleRole.SPI_ROLE_OTHER 23, none⟩, some ⟨9⟩⟩
    ⟨true, AccessibleRole.SPI_ROLE_OTHER 61,
      some ⟨⟨10, 20, 100, 30⟩, ⟨1, 2, 100, 30⟩⟩⟩
    ⟨⟨10, 20, 100, 30⟩, ⟨1, 2, 100, 30⟩⟩
    (some (3, 4)) (some (3, 4))
    (by decide) rfl rfl (by decide) rfl rfl rfl
  ⟨h.1, h.2.2.1, h.2.2.2.2.2.1, h.2.2.2.2.2.2.1⟩

/-! ## Reachable states of the visibility controller -/

/-- Appending one command keeps `ShowAfterHide` when the command is not a
show, or when the trace is empty or ends in a hide. -/
theorem ShowAfterHide.concat (cmds : List String) (c : String)
    (h : ShowAfterHide cmds)
    (hlast : c = show_command → ∀ x, cmds.getLast? = some x → x = hide_command) :
    ShowAfterHide (cmds ++ [c]) := by
  unfold ShowAfterHide at h ⊢
  rw [List.chain'_append]
  refine ⟨h, List.chain'_singleton c, ?_⟩
  intro x hx y hy hshow
  simp only [List.head?_cons, Option.mem_def, Option.some.injEq] at hy
  subst hy
  exact hlast hshow x hx

/-- The invariant only reads the flag and the trace. -/
theorem TraceInv.congr (s t : State) (hc : t.commands = s.commands)
    (ha : t.active = s.active) (h : TraceInv s) : TraceInv t := by
  unfold TraceInv at h ⊢
  rw [hc, ha]
  exact h

/-- The invariant holds at program start. -/
theorem TraceInv.init : TraceInv State.init := by
  simp [TraceInv, State.init, ShowAfterHide]

/-- Hiding keeps the invariant. -/
theorem hide_cellwriter_inv (s : State) (h : TraceInv s) :
    TraceInv (hide_cellwriter s) := by
  obtain ⟨hchain, hall, _⟩ := h
  refine ⟨?_, ?_, ?_⟩
  · simp only [hide_cellwriter, system]
    exact ShowAfterHide.concat _ _ hchain
      (fun hc => absurd hc hide_command_ne_show_command)
  · intro c hc
    simp only [hide_cellwriter, system, List.mem_append, List.mem_singleton] at hc
    rcases hc with hc | hc
    · exact hall c hc
    · exact Or.inl hc
  · simp only [hide_cellwriter, system, List.getLast?_concat, Option.some.injEq]
    constructor
    · intro hf
      exact absurd hf (by simp)
    · intro hf
      exact absurd hf hide_command_ne_show_command

/-- Showing keeps the invariant. -/
theorem show_cellwriter_inv (e : Rect) (ptr : Option (Int × Int)) (s : State)
    (h : TraceInv s) : TraceInv (show_cellwriter e ptr s) := by
  cases hp : query_pointer ptr with
  | false => simpa [show_cellwriter, hp] using h
  | true =>
    cases ha : s.active with
    | true =>
      obtain ⟨hchain, hall, _⟩ := hide_cellwriter_inv s h
      have hcmd : (hide_cellwriter s).commands = s.commands ++ [hide_command] := by
        simp [hide_cellwriter, system]
      refine ⟨?_, ?_, ?_⟩
      · simp only [show_cellwriter, hp, ha, Bool.not_true, Bool.false_eq_true,
          if_false, if_true, system]
        refine ShowAfterHide.concat _ _ hchain ?_
        intro _ x hx
        rw [hcmd, List.getLast?_concat] at hx
        exact (Option.some.inj hx).symm
      · intro c hc
        simp only [show_cellwriter, hp, ha, Bool.not_true, Bool.false_eq_true,
          if_false, if_true, system, List.mem_append, List.mem_singleton] at hc
        rcases hc with hc | hc
        · exact hall c hc
        · exact Or.inr hc
      · simp [show_cellwriter, hp, ha, system, List.getLast?_concat]
    | false =>
      obtain ⟨hchain, hall, hflag⟩ := h
      refine ⟨?_, ?_, ?_⟩
      · simp only [show_cellwriter, hp, ha, Bool.not_true, Bool.false_eq_true,
          if_false, system]
        refine ShowAfterHide.concat _ _ hchain ?_
        intro _ x hx
        have hmem : x ∈ s.commands := List.mem_of_getLast?_eq_some hx
        rcases hall x hmem with hx1 | hx1
        · exact hx1
        · rw [hx1] at hx
          have := hflag.mpr hx
          rw [ha] at this
          exact absurd this (by simp)
      · intro c hc
        simp only [show_cellwriter, hp, ha, Bool.not_true, Bool.false_eq_true,
          if_false, system, List.mem_append, List.mem_singleton] at hc
        rcases hc with hc | hc
        · exact hall c hc
        · exact Or.inr hc
      · simp [show_cellwriter, hp, ha, system, List.getLast?_concat]

/-- The controller keeps the invariant. -/
theorem update_inv (A : Int) (ptr : Option (Int × Int)) (s : State)
    (h : TraceInv s) : TraceInv (update A ptr s) := by
  have h0 : TraceInv { s with current_app := A } := TraceInv.congr s _ rfl rfl h
  unfold update
  simp only
  cases FocusMap.find s.focus_map A with
  | none => exact h0
  | some e =>
    cases e with
    | none => simpa using hide_cellwriter_inv _ h0
    | some r => simpa using show_cellwriter_inv (some r) ptr _ h0

/-- Handling a delivery keeps the invariant. -/
theorem step_inv (s : State) (d : Delivery) (h : TraceInv s) : TraceInv (step s d) := by
  obtain ⟨l, ev, ptr⟩ := d
  unfold step call
  simp only
  cases ev.source with
  | none => exact h
  | some o =>
    cases ev.sourceApplication with
    | none => exact h
    | some app =>
      cases l with
      | focus_listener =>
        simp only [Listener.handler, on_focus]
        exact update_inv _ _ _ (TraceInv.congr s _ rfl rfl h)
      | activate_listener =>
        simp only [Listener.handler, on_activate]
        exact update_inv _ _ _ h

/-- Every state reached from a state with the invariant has it. -/
theorem run_inv (ds : List Delivery) (s : State) (h : TraceInv s) :
    TraceInv (run ds s) := by
  induction ds generalizing s with
  | nil => exact h
  | cons d ds ih => exact ih (step s d) (step_inv s d h)

/-- Every state reached from program start has the invariant. -/
theorem run_init_inv (ds : List Delivery) : TraceInv (run ds State.init) :=
  run_inv ds State.init TraceInv.init

/-! ## Event dispatcher -/

/-- C11: for an event whose source is null or whose source application
does not resolve, `call` invokes no handler: whatever the handler is, the
state comes back as it was, so the registry, `current_app` and the flag are
unchanged and no command is run. -/
theorem call_drops_unresolved (event : AccessibleEvent) (user_data : SPIHandler)
    (ptr : Option (Int × Int)) (s : State)
    (h : event.source = none ∨ event.sourceApplication = none) :
    call event user_data ptr s = s ∧
      (call event user_data ptr s).focus_map = s.focus_map ∧
      (call event user_data ptr s).current_app = s.current_app ∧
      (call event user_data ptr s).active = s.active ∧
      (call event user_data ptr s).commands = s.commands := by
  have hcall : call event user_data ptr s = s := by
    unfold call
    rcases h with h | h
    · rw [h]
    · rw [h]
      cases event.source <;> rfl
  rw [hcall]
  exact ⟨rfl, rfl, rfl, rfl, rfl⟩

/-- C11, at concrete events: a focus event on an editable field whose
application does not resolve, and one without source, both leave a shown
state with an entry for 7 untouched. -/
theorem call_drops_unresolved_witness :
    call ⟨some ⟨true, AccessibleRole.SPI_ROLE_OTHER 61, none⟩, none⟩ on_focus (some (3, 4))
        { focus_map := [(7, some ⟨10, 20, 100, 30⟩)], current_app := 7,
          active := true, commands := [show_command] }
      = { focus_map := [(7, some ⟨10, 20, 100, 30⟩)], current_app := 7,
          active := true, commands := [show_command] } ∧
    call ⟨none, some ⟨7⟩⟩ on_focus (some (3, 4))
        { focus_map := [(7, some ⟨10, 20, 100, 30⟩)], current_app := 7,
          active := true, commands := [show_command] }
      = { focus_map := [(7, some ⟨10, 20, 100, 30⟩)], current_app := 7,
          active := true, commands := [show_command] } :=
  ⟨(call_drops_unresolved
      ⟨some ⟨true, AccessibleRole.SPI_ROLE_OTHER 61, none⟩, none⟩ on_focus (some (3, 4))
      { focus_map := [(7, some ⟨10, 20, 100, 30⟩)], current_app := 7,
        active := true, commands := [show_command] } (Or.inr rfl)).1,
   (call_drops_unresolved ⟨none, some ⟨7⟩⟩ on_focus (some (3, 4))
      { focus_map := [(7, some ⟨10, 20, 100, 30⟩)], current_app := 7,
        active := true, commands := [show_command] } (Or.inl rfl)).1⟩

/-! ## Focus on an object without component interface -/

/-- C12 fails as stated: with application 7 holding a rectangle and the
helper shown, `on_focus` for 7 on an editable text object without component
interface runs the hide command, clears the flag and overwrites the entry
of 7 with the empty pointer. -/
theorem on_focus_no_component_not_inert :
    (on_focus ⟨some ⟨true, AccessibleRole.SPI_ROLE_OTHER 61, none⟩, some ⟨7⟩⟩ 7 (some (3, 4))
        { focus_map := [(7, some ⟨10, 20, 100, 30⟩)], current_app := 7,
          active := true, commands := [show_command] }).commands
      = [show_command, hide_command] ∧
    (on_focus ⟨some ⟨true, AccessibleRole.SPI_ROLE_OTHER 61, none⟩, some ⟨7⟩⟩ 7 (some (3, 4))
        { focus_map := [(7, some ⟨10, 20, 100, 30⟩)], current_app := 7,
          active := true, commands := [show_command] }).active = false ∧
    (on_focus ⟨some ⟨true, AccessibleRole.SPI_ROLE_OTHER 61, none⟩, some ⟨7⟩⟩ 7 (some (3, 4))
        { focus_map := [(7, some ⟨10, 20, 100, 30⟩)], current_app := 7,
          active := true, commands := [show_command] }).focus_map = [(7, none)] ∧
    ¬ ((on_focus ⟨some ⟨true, AccessibleRole.SPI_ROLE_OTHER 61, none⟩, some ⟨7⟩⟩ 7
          (some (3, 4))
          { focus_map := [(7, some ⟨10, 20, 100, 30⟩)], current_app := 7,
            active := true, commands := [show_command] }).commands = [show_command] ∧
        (on_focus ⟨some ⟨true, AccessibleRole.SPI_ROLE_OTHER 61, none⟩, some ⟨7⟩⟩ 7
          (some (3, 4))
          { focus_map := [(7, some ⟨10, 20, 100, 30⟩)], current_app := 7,
            active := true, commands := [show_command] }).focus_map
          = [(7, some ⟨10, 20, 100, 30⟩)] ∧
        (on_focus ⟨some ⟨true, AccessibleRole.SPI_ROLE_OTHER 61, none⟩, some ⟨7⟩⟩ 7
          (some (3, 4))
          { focus_map := [(7, some ⟨10, 20, 100, 30⟩)], current_app := 7,
            active := true, commands := [show_command] }).active = true) := by
  decide

/-- C12 as amended: `on_focus` for application `A` on an object without
component interface stores the empty pointer for `A`, leaves the lookup of
every other application as it was, runs exactly one command, the hide
command, and leaves the helper hidden, for every prior state. -/
theorem on_focus_no_component_hides (s : State) (event : AccessibleEvent)
    (o : AccessibleObj) (A : Int) (ptr : Option (Int × Int))
    (hsrc : event.source = some o) (hcomp : o.component = none) :
    FocusMap.find (on_focus event A ptr s).focus_map A = some none ∧
      (∀ B, B ≠ A →
        FocusMap.find (on_focus event A ptr s).focus_map B = FocusMap.find s.focus_map B) ∧
      (on_focus event A ptr s).commands = s.commands ++ [hide_command] ∧
      (on_focus event A ptr s).active = false := by
  have hprobe : get_text_extents event.source = none := by
    rw [hsrc]
    obtain ⟨ed, role, comp⟩ := o
    simp only at hcomp
    subst hcomp
    cases ed <;> by_cases hr : role = AccessibleRole.SPI_ROLE_DOCUMENT_FRAME <;>
      simp [get_text_extents, get_extents, Accessible_isEditableText,
        Accessible_getRole, Accessible_getComponent, hr]
  have hmap := on_focus_focus_map event A ptr s
  rw [hprobe] at hmap
  refine ⟨?_, ?_, ?_, ?_⟩
  · rw [hmap]
    exact FocusMap.find_assign_self _ _ _
  · intro B hB
    rw [hmap]
    exact FocusMap.find_assign_other _ _ _ _ hB
  · simp [on_focus, hprobe, update, FocusMap.find_assign_self, hide_cellwriter, system]
  · simp [on_focus, hprobe, update, FocusMap.find_assign_self, hide_cellwriter, system]

/-- C12 as amended, at program start: the first focus event of application
7, on an editable object without component interface, runs one hide. -/
theorem on_focus_no_component_hides_witness :
    (on_focus ⟨some ⟨true, AccessibleRole.SPI_ROLE_OTHER 61, none⟩, some ⟨7⟩⟩ 7 (some (3, 4))
        State.init).commands = State.init.commands ++ [hide_command] ∧
      (on_focus ⟨some ⟨true, AccessibleRole.SPI_ROLE_OTHER 61, none⟩, some ⟨7⟩⟩ 7 (some (3, 4))
        State.init).active = false :=
  (on_focus_no_component_hides State.init
    ⟨some ⟨true, AccessibleRole.SPI_ROLE_OTHER 61, none⟩, some ⟨7⟩⟩
    ⟨true, AccessibleRole.SPI_ROLE_OTHER 61, none⟩ 7 (some (3, 4)) rfl rfl).2.2

/-! ## Listeners over a whole run -/

/-- C13: in a run whose startup succeeds (AT-SPI initialised, display
opened, helper window found), whatever deliveries are handled before the
interrupt, exactly two registrations are made, the first listener object
for `focus:` and the second for `window:activate`; `quit` passes the three
static pointers to the deregistration and to the release call, the third
being the null pointer of the never assigned `deactivate_listener`, so the
listener objects deregistered and released are exactly the two registered
ones, each once. -/
theorem main_listeners (spi_init : Int) (d : Display) (ds : List Delivery)
    (sig garbage : Int)
    (hinit : spi_init = 0)
    (hwin : (find_cw_win d.server d.root 1).1 ≠ None) :
    registrations (main spi_init (some d) ds sig garbage).spi_calls
        = [(some ⟨0, Listener.focus_listener⟩, "focus:"),
           (some ⟨1, Listener.activate_listener⟩, "window:activate")] ∧
      deregistration_args (main spi_init (some d) ds sig garbage).spi_calls
        = [some ⟨0, Listener.focus_listener⟩, some ⟨1, Listener.activate_listener⟩, none] ∧
      release_args (main spi_init (some d) ds sig garbage).spi_calls
        = [some ⟨0, Listener.focus_listener⟩, some ⟨1, Listener.activate_listener⟩, none] ∧
      listener_objects
          (deregistration_args (main spi_init (some d) ds sig garbage).spi_calls)
        = [⟨0, Listener.focus_listener⟩, ⟨1, Listener.activate_listener⟩] ∧
      listener_objects (release_args (main spi_init (some d) ds sig garbage).spi_calls)
        = [⟨0, Listener.focus_listener⟩, ⟨1, Listener.activate_listener⟩] ∧
      listener_objects
          ((registrations (main spi_init (some d) ds sig garbage).spi_calls).map
            (fun r => r.1))
        = [⟨0, Listener.focus_listener⟩, ⟨1, Listener.activate_listener⟩] := by
  have hwin0 : ¬ (find_cw_win d.server d.root 1).1 = 0 := hwin
  have hlog : (main spi_init (some d) ds sig garbage).spi_calls
      = [SPICall.SPI_createAccessibleEventListener ⟨0, Listener.focus_listener⟩,
         SPICall.SPI_createAccessibleEventListener ⟨1, Listener.activate_listener⟩,
         SPICall.SPI_registerGlobalEventListener
           (some ⟨0, Listener.focus_listener⟩) "focus:",
         SPICall.SPI_registerGlobalEventListener
           (some ⟨1, Listener.activate_listener⟩) "window:activate",
         SPICall.SPI_event_main,
         SPICall.SPI_deregisterGlobalEventListenerAll (some ⟨0, Listener.focus_listener⟩),
         SPICall.SPI_deregisterGlobalEventListenerAll
           (some ⟨1, Listener.activate_listener⟩),
         SPICall.SPI_deregisterGlobalEventListenerAll none,
         SPICall.AccessibleEventListener_unref (some ⟨0, Listener.focus_listener⟩),
         SPICall.AccessibleEventListener_unref (some ⟨1, Listener.activate_listener⟩),
         SPICall.AccessibleEventListener_unref none,
         SPICall.SPI_event_quit,
         SPICall.SPI_exit] := by
    simp [main, main_startup, hinit, hwin0, quit, create_listener, Process.log,
      Process.init]
  rw [hlog]
  exact ⟨rfl, rfl, rfl, rfl, rfl, rfl⟩

/-- C13, on the sample tree: the display has root 1, two deliveries are
handled, then the interrupt arrives. -/
theorem main_listeners_witness :
    registrations
        (main 0 (some ⟨sample_server, 1⟩)
          [⟨Listener.focus_listener,
             ⟨some ⟨true, AccessibleRole.SPI_ROLE_OTHER 61,
               some ⟨⟨10, 20, 100, 30⟩, ⟨1, 2, 100, 30⟩⟩⟩, some ⟨7⟩⟩, some (3, 4)⟩,
           ⟨Listener.activate_listener, ⟨none, some ⟨9⟩⟩, none⟩] 2 0).spi_calls
        = [(some ⟨0, Listener.focus_listener⟩, "focus:"),
           (some ⟨1, Listener.activate_listener⟩, "window:activate")] ∧
      listener_objects
          (deregistration_args
            (main 0 (some ⟨sample_server, 1⟩)
              [⟨Listener.focus_listener,
                 ⟨some ⟨true, AccessibleRole.SPI_ROLE_OTHER 61,
                   some ⟨⟨10, 20, 100, 30⟩, ⟨1, 2, 100, 30⟩⟩⟩, some ⟨7⟩⟩, some (3, 4)⟩,
               ⟨Listener.activate_listener, ⟨none, some ⟨9⟩⟩, none⟩] 2 0).spi_calls)
        = [⟨0, Listener.focus_listener⟩, ⟨1, Listener.activate_listener⟩] :=
  have h := main_listeners 0 ⟨sample_server, 1⟩
    [⟨Listener.focus_listener,
       ⟨some ⟨true, AccessibleRole.SPI_ROLE_OTHER 61,
         some ⟨⟨10, 20, 100, 30⟩, ⟨1, 2, 100, 30⟩⟩⟩, some ⟨7⟩⟩, some (3, 4)⟩,
     ⟨Listener.activate_listener, ⟨none, some ⟨9⟩⟩, none⟩] 2 0 rfl (by decide)
  ⟨h.1, h.2.2.2.1⟩

/-! ## Traces of reachable states -/

/-- C14: in the command trace of every state reached from program start,
whatever the deliveries, probes and pointer outcomes were, every show
command is the first command of the trace or directly follows a hide
command, and no two adjacent commands are both show commands. -/
theorem run_no_double_show (ds : List Delivery) :
    ShowAfterHide (run ds State.init).commands ∧
      NoDoubleShow (run ds State.init).commands := by
  have h := (run_init_inv ds).1
  refine ⟨h, ?_⟩
  unfold ShowAfterHide at h
  unfold NoDoubleShow
  refine List.Chain'.imp ?_ h
  intro a b hab hboth
  have := hab hboth.2
  rw [hboth.1] at this
  exact hide_command_ne_show_command this.symm

/-- C15: for two states with the same flag whose registries hold
rectangles `r1` and `r2` for `A`, `update A` under the same pointer outcome
runs the same commands and ends with the same flag. -/
theorem update_rect_values_irrelevant (s1 s2 : State) (A : Int) (r1 r2 : SPIRect)
    (ptr : Option (Int × Int))
    (h1 : FocusMap.find s1.focus_map A = some (some r1))
    (h2 : FocusMap.find s2.focus_map A = some (some r2))
    (hflag : s1.active = s2.active) :
    (∃ issued : List String,
        (update A ptr s1).commands = s1.commands ++ issued ∧
        (update A ptr s2).commands = s2.commands ++ issued) ∧
      (update A ptr s1).active = (update A ptr s2).active := by
  cases hp : query_pointer ptr with
  | false =>
    refine ⟨⟨[], ?_, ?_⟩, ?_⟩ <;>
      simp [update, h1, h2, show_cellwriter, hp, hflag]
  | true =>
    cases ha : s2.active with
    | false =>
      have ha1 : s1.active = false := by rw [hflag, ha]
      refine ⟨⟨[show_command], ?_, ?_⟩, ?_⟩ <;>
        simp [update, h1, h2, show_cellwriter, hp, ha, ha1, system]
    | true =>
      have ha1 : s1.active = true := by rw [hflag, ha]
      refine ⟨⟨[hide_command, show_command], ?_, ?_⟩, ?_⟩ <;>
        simp [update, h1, h2, show_cellwriter, hp, ha, ha1, system, hide_cellwriter]

/-- C15, at two shown states that differ in the rectangle stored for 7. -/
theorem update_rect_values_irrelevant_witness :
    (∃ issued : List String,
        (update 7 (some (3, 4))
          { focus_map := [(7, some ⟨10, 20, 100, 30⟩)], current_app := 7,
            active := true, commands := [show_command] }).commands
          = [show_command] ++ issued ∧
        (update 7 (some (3, 4))
          { focus_map := [(7, some ⟨0, 0, 1, 1⟩)], current_app := 7,
            active := true, commands := [show_command] }).commands
          = [show_command] ++ issued) ∧
      (update 7 (some (3, 4))
        { focus_map := [(7, some ⟨10, 20, 100, 30⟩)], current_app := 7,
          active := true, commands := [show_command] }).active
        = (update 7 (some (3, 4))
          { focus_map := [(7, some ⟨0, 0, 1, 1⟩)], current_app := 7,
            active := true, commands := [show_command] }).active :=
  update_rect_values_irrelevant
    { focus_map := [(7, some ⟨10, 20, 100, 30⟩)], current_app := 7,
      active := true, commands := [show_command] }
    { focus_map := [(7, some ⟨0, 0, 1, 1⟩)], current_app := 7,
      active := true, commands := [show_command] }
    7 ⟨10, 20, 100, 30⟩ ⟨0, 0, 1, 1⟩ (some (3, 4)) (by decide) (by decide) rfl

/-- C16: in every state reached from program start, whatever the
deliveries, probes and pointer outcomes were, the flag `active` is set
exactly when at least one command has been run and the last one is the show
command. -/
theorem run_active_iff_last_show (ds : List Delivery) :
    (run ds State.init).active = true ↔
      ∃ earlier : List String,
        (run ds State.init).commands = earlier ++ [show_command] := by
  have h := (run_init_inv ds).2.2
  rw [h]
  constructor
  · intro hl
    rcases List.eq_nil_or_concat (run ds State.init).commands with hnil | ⟨l, c, hc⟩
    · rw [hnil] at hl
      exact absurd hl (by simp)
    · rw [List.concat_eq_append] at hc
      rw [hc, List.getLast?_concat] at hl
      exact ⟨l, by rw [hc, Option.some.inj hl]⟩
  · rintro ⟨l, hl⟩
    rw [hl, List.getLast?_concat]

/-! ## Registry frame -/

/-- C17: `on_activate` for any application `A` leaves the registry as it
was, so an application without entry still has none afterwards; `on_focus`
for `A` leaves the lookup of every other application `B` as it was. -/
theorem registry_frame (s : State) (event : AccessibleEvent) (A : Int)
    (ptr : Option (Int × Int)) :
    (on_activate event A ptr s).focus_map = s.focus_map ∧
      (FocusMap.find s.focus_map A = none →
        FocusMap.find (on_activate event A ptr s).focus_map A = none) ∧
      (∀ B, B ≠ A →
        FocusMap.find (on_focus event A ptr s).focus_map B
          = FocusMap.find s.focus_map B) := by
  have hact : (on_activate event A ptr s).focus_map = s.focus_map := by
    simp [on_activate, update_focus_map]
  refine ⟨hact, ?_, ?_⟩
  · intro h
    rw [hact]
    exact h
  · intro B hB
    rw [on_focus_focus_map]
    exact FocusMap.find_assign_other _ _ _ _ hB

/-- C17, at a concrete state: application 7 holds a rectangle; activating
the unknown application 9 creates no entry, and a focus event of 9 leaves
the entry of 7 in place. -/
theorem registry_frame_witness :
    FocusMap.find
        (on_activate ⟨none, some ⟨9⟩⟩ 9 (some (3, 4))
          { focus_map := [(7, some ⟨10, 20, 100, 30⟩)], current_app := 7,
            active := true, commands := [show_command] }).focus_map 9 = none ∧
      FocusMap.find
        (on_focus ⟨some ⟨false, AccessibleRole.SPI_ROLE_OTHER 23, none⟩, some ⟨9⟩⟩ 9
          (some (3, 4))
          { focus_map := [(7, some ⟨10, 20, 100, 30⟩)], current_app := 7,
            active := true, commands := [show_command] }).focus_map 7
        = some (some ⟨10, 20, 100, 30⟩) :=
  ⟨(registry_frame
      { focus_map := [(7, some ⟨10, 20, 100, 30⟩)], current_app := 7,
        active := true, commands := [show_command] }
      ⟨none, some ⟨9⟩⟩ 9 (some (3, 4))).2.1 (by decide),
   (registry_frame
      { focus_map := [(7, some ⟨10, 20, 100, 30⟩)], current_app := 7,
        active := true, commands := [show_command] }
      ⟨some ⟨false, AccessibleRole.SPI_ROLE_OTHER 23, none⟩, some ⟨9⟩⟩ 9
      (some (3, 4))).2.2 7 (by decide)⟩

/-! ## Startup -/

/-- Listing each window by itself gives the list back. -/
theorem concat_map_singleton (cs : List Window) :
    concat_map (fun c => [c]) cs = cs := by
  induction cs with
  | nil => rfl
  | cons c cs ih => simp [concat_map, ih]

/-- At depth 0 the search returns the window itself when it matches and
`None` otherwise. -/
theorem find_cw_win_zero_first (X : XServer) (c : Window) :
    (find_cw_win X c 0).1 = first_match X [c] := by
  by_cases hc : c = 0
  · subst hc
    have h0 := is_cw_win_None X
    simp only [None] at h0
    simp [find_cw_win, first_match, h0, None]
  · by_cases hm : is_cw_win X c = true
    · simp [find_cw_win, first_match, hc, hm]
    · simp [find_cw_win, first_match, hc, hm]

/-- One level of the search from a window other than `None`: the first
match among the window and the listings of its children, as soon as the
search one level lower returns the first match of each listing. -/
theorem find_cw_win_succ_first (X : XServer) (d : Nat)
    (listing : Window → List Window)
    (h : ∀ c, (find_cw_win X c d).1 = first_match X (listing c))
    (w : Window) (hw : w ≠ None) :
    (find_cw_win X w (d + 1)).1
      = first_match X (w :: concat_map listing (children X w)) := by
  have hw0 : ¬ w = 0 := hw
  by_cases hm : is_cw_win X w = true
  · simp [find_cw_win, first_match, hw0, hm]
  · have hloop := fun cs => find_cw_win_loop_first X
      (fun c => find_cw_win X c d) listing cs (fun c _ => h c)
    cases hq : X.XQueryTree w with
    | none => simp [find_cw_win, first_match, hw0, hm, hq, children, concat_map]
    | some ch =>
      have := hloop ch
      simp only [first_match] at this
      simp [find_cw_win, first_match, hw0, hm, hq, children, this]

/-- At depth 1 the search from a window other than `None` returns the first
match among the window and its children. -/
theorem find_cw_win_one_first (X : XServer) (w : Window) (hw : w ≠ None) :
    (find_cw_win X w 1).1 = first_match X (w :: children X w) := by
  have h := find_cw_win_succ_first X 0 (fun c => [c]) (find_cw_win_zero_first X) w hw
  rw [concat_map_singleton] at h
  exact h

/-- The loop queries no tree when the recursive search queries none. -/
theorem find_cw_win_loop_no_query (search : Window → Window × List Window)
    (cs : List Window) (h : ∀ c, (search c).2 = []) :
    (find_cw_win_loop search cs).2 = [] := by
  induction cs with
  | nil => rfl
  | cons c cs ih =>
    by_cases h0 : (search c).1 = 0
    · simp [find_cw_win_loop, h0, h c, ih]
    · simp [find_cw_win_loop, h0, h c]

/-- At depth 0 no tree is queried. -/
theorem find_cw_win_zero_no_query (X : XServer) (c : Window) :
    (find_cw_win X c 0).2 = [] := by
  by_cases hc : c = 0
  · simp [find_cw_win, hc]
  · by_cases hm : is_cw_win X c = true
    · simp [find_cw_win, hc, hm]
    · simp [find_cw_win, hc, hm]

/-- One level of the search queries only the tree of the start window when
the search one level lower queries none. -/
theorem find_cw_win_succ_queries (X : XServer) (d : Nat)
    (h : ∀ c, (find_cw_win X c d).2 = []) (w : Window) :
    ∀ q ∈ (find_cw_win X w (d + 1)).2, q = w := by
  intro q hq
  by_cases hw : w = 0
  · simp [find_cw_win, hw] at hq
  · by_cases hm : is_cw_win X w = true
    · simp [find_cw_win, hw, hm] at hq
    · cases ht : X.XQueryTree w with
      | none => simpa [find_cw_win, hw, hm, ht] using hq
      | some ch =>
        have hnil := find_cw_win_loop_no_query (fun c => find_cw_win X c d) ch h
        simpa [find_cw_win, hw, hm, ht, hnil] using hq

/-- At depth 1 the only tree that can be queried is that of the start
window. -/
theorem find_cw_win_one_queries (X : XServer) (w : Window) :
    ∀ q ∈ (find_cw_win X w 1).2, q = w :=
  find_cw_win_succ_queries X 0 (find_cw_win_zero_no_query X) w

/-- C18: with AT-SPI initialised and a display whose root is a window,
startup searches from the root with depth 1 and queries no tree other than
that of the root.  When neither the root nor any child of the root
satisfies `is_cw_win`, startup prints that the helper window was not found
and exits with `EXIT_FAILURE`, whatever lies deeper in the tree; when the
root or a child of the root satisfies it, startup reaches the event
loop. -/
theorem main_startup_depth_one (spi_init : Int) (d : Display)
    (hinit : spi_init = 0) (hroot : d.root ≠ None) :
    ((∀ v ∈ d.root :: children d.server d.root, is_cw_win d.server v = false) →
        main_startup spi_init (some d)
          = Startup.exited EXIT_FAILURE ["Error: Cellwriter window not found\n"]) ∧
      ((∃ v ∈ d.root :: children d.server d.root, is_cw_win d.server v = true) →
        ∃ p : Process, main_startup spi_init (some d) = Startup.running p ∧
          p.win = first_match d.server (d.root :: children d.server d.root)) ∧
      (∀ q ∈ (find_cw_win d.server d.root 1).2, q = d.root) := by
  have hfirst := find_cw_win_one_first d.server d.root hroot
  refine ⟨?_, ?_, find_cw_win_one_queries d.server d.root⟩
  · intro hnone
    have hz : (find_cw_win d.server d.root 1).1 = 0 := by
      rw [hfirst]
      apply (first_match_eq_None_iff _ _).mpr
      rw [List.find?_eq_none]
      intro v hv
      simp [hnone v hv]
    simp [main_startup, hinit, hz]
  · rintro ⟨v, hv, hmatch⟩
    have hz : ¬ (find_cw_win d.server d.root 1).1 = 0 := by
      rw [hfirst]
      intro hc
      have := (first_match_eq_None_iff _ _).mp hc
      rw [List.find?_eq_none] at this
      exact this v hv (by simpa using hmatch)
    rw [hfirst] at hz
    simp [main_startup, hinit, hz, hfirst, create_listener, Process.log, Process.init]

/-- C18, on the two sample trees: in the chain the only match is at depth
2, a search of depth 2 would find it, and startup fails; in the first
sample tree the child 3 of the root matches and startup reaches the event
loop. -/
theorem main_startup_depth_one_witness :
    (find_cw_win deep_server 1 2).1 = 5 ∧
      main_startup 0 (some ⟨deep_server, 1⟩)
        = Startup.exited EXIT_FAILURE ["Error: Cellwriter window not found\n"] ∧
      (∃ p : Process, main_startup 0 (some ⟨sample_server, 1⟩) = Startup.running p ∧
        p.win = first_match sample_server (1 :: children sample_server 1)) :=
  ⟨by decide,
   (main_startup_depth_one 0 ⟨deep_server, 1⟩ rfl (by decide)).1 (by decide),
   (main_startup_depth_one 0 ⟨sample_server, 1⟩ rfl (by decide)).2.1
     ⟨3, by decide, by decide⟩⟩

end AutoCW
